import Mathlib

/-!
# Verification of the free-scripts Google Ads reporting repository

Shallow embedding of the aggregation, derived-metric, sorting, new-query
detection and notification logic of:

* `src/daily-email-country-performance.js` (country aggregation + email),
* `src/performance-dashboard-exporter.js`, which holds two scripts:
  the dashboard exporter (country tab aggregation, completion email) and
  the "new search queries" set-difference workflow.

JavaScript numbers are modelled exactly as rationals extended with `NaN`
and the two infinities (type `JNum` below); rounding of IEEE doubles is
idealized away, which the specification licenses ("to floating-point
tolerance").  All definitions are translated from the JavaScript source;
side-effecting steps (spreadsheet writes, `MailApp.sendEmail`, console
logs) are made explicit in returned values, and a fallible mail facility
is passed in as an `Except String Unit` argument.
-/

namespace FreeScripts

/-- JavaScript number, idealized: a rational, `NaN`, or one of the two
infinities.  `parseInt` produces integers or `nan`; `parseFloat` produces
rationals, `nan`, or (only for the literal strings `"Infinity"` etc.)
the infinities. -/
inductive JNum where
  | nan : JNum
  | posInf : JNum
  | negInf : JNum
  | num : ℚ → JNum
deriving DecidableEq, Repr

/-- JavaScript addition (`+=` in the aggregation loops): `NaN` absorbs,
opposite infinities give `NaN`, finite values add exactly. -/
def jadd : JNum → JNum → JNum
  | .nan, _ => .nan
  | _, .nan => .nan
  | .posInf, .negInf => .nan
  | .negInf, .posInf => .nan
  | .posInf, _ => .posInf
  | _, .posInf => .posInf
  | .negInf, _ => .negInf
  | _, .negInf => .negInf
  | .num a, .num b => .num (a + b)

/-- JavaScript strict less-than: any comparison with `NaN` is false. -/
def jlt : JNum → JNum → Bool
  | .nan, _ => false
  | _, .nan => false
  | .posInf, _ => false
  | .negInf, .negInf => false
  | .negInf, _ => true
  | .num _, .posInf => true
  | .num _, .negInf => false
  | .num a, .num b => decide (a < b)

/-- JavaScript division, for the denominators reachable in these scripts
(`0/0 = NaN`, `q/0 = ±Infinity` for `q ≠ 0`, finite division exact). -/
def jdiv : JNum → JNum → JNum
  | .nan, _ => .nan
  | _, .nan => .nan
  | .posInf, .posInf => .nan
  | .posInf, .negInf => .nan
  | .negInf, .posInf => .nan
  | .negInf, .negInf => .nan
  | .posInf, .num b => if b < 0 then .negInf else .posInf
  | .negInf, .num b => if b < 0 then .posInf else .negInf
  | .num _, .posInf => .num 0
  | .num _, .negInf => .num 0
  | .num a, .num b =>
      if b = 0 then (if a = 0 then .nan else if 0 < a then .posInf else .negInf)
      else .num (a / b)

/-- JavaScript truthiness of a number: `0` and `NaN` are falsy. -/
def jsTruthy : JNum → Bool
  | .nan => false
  | .num q => decide (q ≠ 0)
  | _ => true

/-- The `x || 0` coercion idiom of the exporter script. -/
def jsOr0 (x : JNum) : JNum := if jsTruthy x then x else .num 0

/-- `x` is a finite number (not `NaN`, not an infinity). -/
def JNum.isFinite : JNum → Bool
  | .num _ => true
  | _ => false

/-- `x` is one of the two infinities. -/
def JNum.isInf : JNum → Bool
  | .posInf => true
  | .negInf => true
  | _ => false

instance : Zero JNum := ⟨.num 0⟩
instance : Add JNum := ⟨jadd⟩

theorem jadd_def (a b : JNum) : a + b = jadd a b := rfl

theorem jadd_comm (a b : JNum) : jadd a b = jadd b a := by
  rcases a with _ | _ | _ | a <;> rcases b with _ | _ | _ | b <;>
    simp [jadd] <;> ring

theorem jadd_assoc (a b c : JNum) : jadd (jadd a b) c = jadd a (jadd b c) := by
  rcases a with _ | _ | _ | a <;> rcases b with _ | _ | _ | b <;>
    rcases c with _ | _ | _ | c <;> simp [jadd] <;> ring

theorem jadd_zero (a : JNum) : jadd a (.num 0) = a := by
  rcases a with _ | _ | _ | a <;> simp [jadd]

instance : AddCommMonoid JNum where
  add_assoc := jadd_assoc
  zero_add a := by show jadd (.num 0) a = a; rw [jadd_comm]; exact jadd_zero a
  add_zero := jadd_zero
  add_comm := jadd_comm
  nsmul := nsmulRec

theorem jadd_finite {a b : JNum} (ha : a.isFinite = true) (hb : b.isFinite = true) :
    (jadd a b).isFinite = true := by
  rcases a with _ | _ | _ | a <;> rcases b with _ | _ | _ | b <;>
    simp_all [jadd, JNum.isFinite]

/-! ## `src/daily-email-country-performance.js`: `getCountryData` -/

/-- One row of the `CAMPAIGN_LOCATION_TARGET_REPORT`, with its numeric
fields already parsed: `cost` and `conversions` are
`parseFloat(row[...].replace(/,/g, ''))`, `impressions` and `clicks` are
`parseInt(row[...].replace(/,/g, ''), 10)`; a malformed field parses to
`JNum.nan`. -/
structure CRow where
  criteriaId : String
  cost : JNum
  impressions : JNum
  clicks : JNum
  conversions : JNum
deriving DecidableEq, Repr

/-- The per-country accumulator (`{name, spend, impressions, clicks,
conversions}` without the `name`), also the shape of the `totals`
object. -/
structure Stats where
  spend : JNum
  impressions : JNum
  clicks : JNum
  conversions : JNum
deriving DecidableEq, Repr

/-- The zero-initialized stats object. -/
def Stats.zero : Stats := ⟨.num 0, .num 0, .num 0, .num 0⟩

/-- The four `+=` statements applied to a stats object for one row. -/
def Stats.addRow (s : Stats) (r : CRow) : Stats :=
  { spend := jadd s.spend r.cost
    impressions := jadd s.impressions r.impressions
    clicks := jadd s.clicks r.clicks
    conversions := jadd s.conversions r.conversions }

/-- `locationMap.get(criteriaId) || 'Unknown'`: a missing entry, and the
falsy empty string, both fall back to `'Unknown'`. -/
def resolveCountry (locMap : String → Option String) (id : String) : String :=
  match locMap id with
  | some v => if v = "" then "Unknown" else v
  | none => "Unknown"

/-- Add one row to the country `Map`: update the existing entry in place
if the key is present (a JS `Map` keeps insertion order), otherwise
append a fresh zero-initialized entry.  Mirrors the
`if (!countryData.has(countryName)) ... countryStats.spend += ...`
block. -/
def bucketAdd : List (String × Stats) → String → CRow → List (String × Stats)
  | [], k, r => [(k, Stats.zero.addRow r)]
  | p :: ps, k, r =>
      if p.1 = k then (p.1, p.2.addRow r) :: ps else p :: bucketAdd ps k r

/-- The mutable state of `getCountryData`'s main loop: the `countryData`
map and the running `totals`. -/
structure CountryAgg where
  buckets : List (String × Stats)
  totals : Stats
deriving DecidableEq, Repr

/-- One iteration of the report loop: resolve the country name, and if
`spend > 0` (false for `NaN` cost) add the row to that country's bucket
and to the totals; otherwise leave the state unchanged. -/
def countryStep (locMap : String → Option String) (st : CountryAgg) (r : CRow) :
    CountryAgg :=
  if jlt (.num 0) r.cost then
    { buckets := bucketAdd st.buckets (resolveCountry locMap r.criteriaId) r
      totals := st.totals.addRow r }
  else st

/-- The aggregation pass of `getCountryData` over the whole report. -/
def countryAgg (locMap : String → Option String) (rows : List CRow) : CountryAgg :=
  rows.foldl (countryStep locMap) ⟨[], Stats.zero⟩

/-- A finished row of the `countryReport` array: the bucket fields plus
the derived `ctr` and `cpc`. -/
structure CountryReport where
  name : String
  spend : JNum
  impressions : JNum
  clicks : JNum
  conversions : JNum
  ctr : JNum
  cpc : JNum
deriving DecidableEq, Repr

/-- The `.map(country => ({...country, ctr, cpc}))` step: derived
metrics with zero-denominator guards. -/
def mkCountryReport (p : String × Stats) : CountryReport :=
  { name := p.1
    spend := p.2.spend
    impressions := p.2.impressions
    clicks := p.2.clicks
    conversions := p.2.conversions
    ctr := if jlt (.num 0) p.2.impressions then jdiv p.2.clicks p.2.impressions
           else .num 0
    cpc := if jlt (.num 0) p.2.clicks then jdiv p.2.spend p.2.clicks
           else .num 0 }

/-- The comparator `(a, b) => b.spend - a.spend`: `a` may stay before
`b` exactly when the comparator is not positive, i.e. when
`a.spend < b.spend` is false. -/
def bySpendDesc (a b : CountryReport) : Prop := jlt a.spend b.spend = false

instance : DecidableRel bySpendDesc := fun a b =>
  inferInstanceAs (Decidable (jlt a.spend b.spend = false))

/-- The value returned by `getCountryData`: the sorted report array and
the totals. -/
structure CountryData where
  countries : List CountryReport
  totals : Stats
deriving DecidableEq, Repr

/-- `getCountryData`: aggregate, derive metrics, sort by spend
descending.  `Array.prototype.sort` is stable; it is modelled by the
stable `List.insertionSort`. -/
def getCountryData (locMap : String → Option String) (rows : List CRow) :
    CountryData :=
  let agg := countryAgg locMap rows
  { countries := (agg.buckets.map mkCountryReport).insertionSort bySpendDesc
    totals := agg.totals }

/-- The unguarded CTR of the email's TOTAL row:
`totals.clicks / totals.impressions` (line 209 of the script). -/
def emailTotalCtr (d : CountryData) : JNum := jdiv d.totals.clicks d.totals.impressions

/-- The guarded average CPC of the email's TOTAL row:
`totals.clicks > 0 ? totals.spend / totals.clicks : 0`. -/
def emailTotalCpc (d : CountryData) : JNum :=
  if jlt (.num 0) d.totals.clicks then jdiv d.totals.spend d.totals.clicks else .num 0

/-! ### Bucket sums versus grand totals -/

theorem bucketAdd_sum (f : Stats → JNum) (g : CRow → JNum)
    (hf : ∀ s r, f (s.addRow r) = jadd (f s) (g r))
    (hz : f Stats.zero = .num 0) :
    ∀ (bs : List (String × Stats)) (k : String) (r : CRow),
      ((bucketAdd bs k r).map (fun p => f p.2)).sum =
        jadd ((bs.map (fun p => f p.2)).sum) (g r) := by
  intro bs k r
  induction bs with
  | nil =>
      simp only [bucketAdd, List.map_cons, List.map_nil, List.sum_cons,
        List.sum_nil, hf, hz]
      rw [jadd_def]
      rw [show (0 : JNum) = JNum.num 0 from rfl, jadd_zero]
  | cons p ps ih =>
      by_cases hp : p.1 = k
      · simp only [bucketAdd, if_pos hp, List.map_cons, List.sum_cons, hf]
        rw [jadd_def, jadd_def, jadd_assoc, jadd_assoc,
          jadd_comm (g r) (List.sum _)]
      · simp only [bucketAdd, if_neg hp, List.map_cons, List.sum_cons, ih]
        rw [jadd_def, jadd_def, jadd_assoc]

theorem countryAgg_sum_inv (locMap : String → Option String)
    (f : Stats → JNum) (g : CRow → JNum)
    (hf : ∀ s r, f (s.addRow r) = jadd (f s) (g r))
    (hz : f Stats.zero = .num 0) :
    ∀ (rows : List CRow) (st : CountryAgg),
      ((st.buckets.map (fun p => f p.2)).sum = f st.totals) →
      (((rows.foldl (countryStep locMap) st).buckets.map (fun p => f p.2)).sum =
        f (rows.foldl (countryStep locMap) st).totals) := by
  intro rows
  induction rows with
  | nil => intro st h; simpa using h
  | cons r rs ih =>
      intro st h
      rw [List.foldl_cons]
      apply ih
      unfold countryStep
      by_cases hc : jlt (.num 0) r.cost
      · simp only [if_pos hc]
        rw [bucketAdd_sum f g hf hz, h, hf]
      · simp only [if_neg hc]; exact h

theorem countryAgg_sum (locMap : String → Option String)
    (f : Stats → JNum) (g : CRow → JNum)
    (hf : ∀ s r, f (s.addRow r) = jadd (f s) (g r))
    (hz : f Stats.zero = .num 0) (rows : List CRow) :
    (((countryAgg locMap rows).buckets.map (fun p => f p.2)).sum =
      f (countryAgg locMap rows).totals) := by
  apply countryAgg_sum_inv locMap f g hf hz rows
  simp only [countryAgg, List.map_nil, List.sum_nil, hz]
  rfl

theorem countries_sum_eq_buckets_sum (locMap : String → Option String)
    (rows : List CRow) (f : CountryReport → JNum) (g : Stats → JNum)
    (hfg : ∀ p, f (mkCountryReport p) = g p.2) :
    (((getCountryData locMap rows).countries.map f).sum =
      (((countryAgg locMap rows).buckets.map (fun p => g p.2)).sum)) := by
  unfold getCountryData
  have hperm :
      List.Perm
        (((countryAgg locMap rows).buckets.map mkCountryReport).insertionSort bySpendDesc)
        ((countryAgg locMap rows).buckets.map mkCountryReport) :=
    List.perm_insertionSort _ _
  have := (hperm.map f).sum_eq
  simp only [this, List.map_map]
  congr 1
  apply List.map_congr_left
  intro p _
  exact hfg p

/-- C1: for every finite input sequence, the sum over the per-country
rows of each counter (spend, impressions, clicks, conversions) equals
the corresponding grand-total counter of `getCountryData`. -/
theorem country_bucket_sums_eq_totals (locMap : String → Option String)
    (rows : List CRow) :
    (((getCountryData locMap rows).countries.map (fun c => c.spend)).sum =
        (getCountryData locMap rows).totals.spend) ∧
    (((getCountryData locMap rows).countries.map (fun c => c.impressions)).sum =
        (getCountryData locMap rows).totals.impressions) ∧
    (((getCountryData locMap rows).countries.map (fun c => c.clicks)).sum =
        (getCountryData locMap rows).totals.clicks) ∧
    (((getCountryData locMap rows).countries.map (fun c => c.conversions)).sum =
        (getCountryData locMap rows).totals.conversions) := by
  have htot : (getCountryData locMap rows).totals = (countryAgg locMap rows).totals := rfl
  refine ⟨?_, ?_, ?_, ?_⟩ <;> rw [htot]
  · rw [countries_sum_eq_buckets_sum locMap rows _ (fun s => s.spend) (fun p => rfl)]
    exact countryAgg_sum locMap (fun s => s.spend) (fun r => r.cost)
      (fun s r => rfl) rfl rows
  · rw [countries_sum_eq_buckets_sum locMap rows _ (fun s => s.impressions) (fun p => rfl)]
    exact countryAgg_sum locMap (fun s => s.impressions) (fun r => r.impressions)
      (fun s r => rfl) rfl rows
  · rw [countries_sum_eq_buckets_sum locMap rows _ (fun s => s.clicks) (fun p => rfl)]
    exact countryAgg_sum locMap (fun s => s.clicks) (fun r => r.clicks)
      (fun s r => rfl) rfl rows
  · rw [countries_sum_eq_buckets_sum locMap rows _ (fun s => s.conversions) (fun p => rfl)]
    exact countryAgg_sum locMap (fun s => s.conversions) (fun r => r.conversions)
      (fun s r => rfl) rfl rows

/-! ### Only positive-spend records are counted -/

theorem countryFold_filter (locMap : String → Option String) :
    ∀ (rows : List CRow) (st : CountryAgg),
      rows.foldl (countryStep locMap) st =
        (rows.filter (fun r => jlt (.num 0) r.cost)).foldl (countryStep locMap) st := by
  intro rows
  induction rows with
  | nil => intro st; rfl
  | cons r rs ih =>
      intro st
      by_cases hc : jlt (.num 0) r.cost
      · simp only [List.filter_cons, hc, if_true, List.foldl_cons]
        exact ih _
      · simp only [List.filter_cons, hc, Bool.false_eq_true, if_false, List.foldl_cons]
        have hskip : countryStep locMap st r = st := by
          unfold countryStep; rw [if_neg hc]
        rw [hskip]
        exact ih _

/-- C9: records whose parsed `Cost` is not strictly greater than `0` are
excluded from both the buckets and the totals — `getCountryData` computes
the same value on the input filtered to positive-spend records — and the
bucket-sum-equals-total invariant holds for that filtered input. -/
theorem country_excludes_nonpositive_spend (locMap : String → Option String)
    (rows : List CRow) :
    (getCountryData locMap rows =
      getCountryData locMap (rows.filter (fun r => jlt (.num 0) r.cost))) ∧
    (((getCountryData locMap (rows.filter (fun r => jlt (.num 0) r.cost))).countries.map
        (fun c => c.spend)).sum =
      (getCountryData locMap (rows.filter (fun r => jlt (.num 0) r.cost))).totals.spend) ∧
    (((getCountryData locMap (rows.filter (fun r => jlt (.num 0) r.cost))).countries.map
        (fun c => c.impressions)).sum =
      (getCountryData locMap (rows.filter (fun r => jlt (.num 0) r.cost))).totals.impressions) ∧
    (((getCountryData locMap (rows.filter (fun r => jlt (.num 0) r.cost))).countries.map
        (fun c => c.clicks)).sum =
      (getCountryData locMap (rows.filter (fun r => jlt (.num 0) r.cost))).totals.clicks) ∧
    (((getCountryData locMap (rows.filter (fun r => jlt (.num 0) r.cost))).countries.map
        (fun c => c.conversions)).sum =
      (getCountryData locMap (rows.filter (fun r => jlt (.num 0) r.cost))).totals.conversions) := by
  refine ⟨?_, ?_, ?_, ?_, ?_⟩
  · unfold getCountryData countryAgg
    rw [countryFold_filter]
  · rw [show (getCountryData locMap (rows.filter (fun r => jlt (.num 0) r.cost))).totals =
      (countryAgg locMap (rows.filter (fun r => jlt (.num 0) r.cost))).totals from rfl]
    rw [countries_sum_eq_buckets_sum locMap _ _ (fun s => s.spend) (fun p => rfl)]
    exact countryAgg_sum locMap (fun s => s.spend) (fun r => r.cost)
      (fun s r => rfl) rfl _
  · rw [show (getCountryData locMap (rows.filter (fun r => jlt (.num 0) r.cost))).totals =
      (countryAgg locMap (rows.filter (fun r => jlt (.num 0) r.cost))).totals from rfl]
    rw [countries_sum_eq_buckets_sum locMap _ _ (fun s => s.impressions) (fun p => rfl)]
    exact countryAgg_sum locMap (fun s => s.impressions) (fun r => r.impressions)
      (fun s r => rfl) rfl _
  · rw [show (getCountryData locMap (rows.filter (fun r => jlt (.num 0) r.cost))).totals =
      (countryAgg locMap (rows.filter (fun r => jlt (.num 0) r.cost))).totals from rfl]
    rw [countries_sum_eq_buckets_sum locMap _ _ (fun s => s.clicks) (fun p => rfl)]
    exact countryAgg_sum locMap (fun s => s.clicks) (fun r => r.clicks)
      (fun s r => rfl) rfl _
  · rw [show (getCountryData locMap (rows.filter (fun r => jlt (.num 0) r.cost))).totals =
      (countryAgg locMap (rows.filter (fun r => jlt (.num 0) r.cost))).totals from rfl]
    rw [countries_sum_eq_buckets_sum locMap _ _ (fun s => s.conversions) (fun p => rfl)]
    exact countryAgg_sum locMap (fun s => s.conversions) (fun r => r.conversions)
      (fun s r => rfl) rfl _

/-! ## `src/performance-dashboard-exporter.js`: `exportTopCountriesData` -/

/-- One row of the `geographic_view` report in the exporter, numeric
fields already parsed: `clicks` and `impressions` via `parseInt`,
the rest via `parseFloat`; malformed fields parse to `JNum.nan`. -/
structure GRow where
  countryCriterionId : String
  clicks : JNum
  impressions : JNum
  costMicros : JNum
  convValue : JNum
  conversions : JNum
  allConversions : JNum
deriving DecidableEq, Repr

/-- The exporter's per-country accumulator
`{clicks, impressions, cost, convValue, conversions, allConversions}`. -/
structure GStats where
  clicks : JNum
  impressions : JNum
  cost : JNum
  convValue : JNum
  conversions : JNum
  allConversions : JNum
deriving DecidableEq, Repr

/-- The zero-initialized exporter accumulator. -/
def GStats.zero : GStats := ⟨.num 0, .num 0, .num 0, .num 0, .num 0, .num 0⟩

/-- The six `+=` statements of the exporter loop, with the `|| 0`
coercions and the `cost_micros / 1000000` conversion. -/
def GStats.addRow (s : GStats) (r : GRow) : GStats :=
  { clicks := jadd s.clicks (jsOr0 r.clicks)
    impressions := jadd s.impressions (jsOr0 r.impressions)
    cost := jadd s.cost (jdiv (jsOr0 r.costMicros) (.num 1000000))
    convValue := jadd s.convValue (jsOr0 r.convValue)
    conversions := jadd s.conversions (jsOr0 r.conversions)
    allConversions := jadd s.allConversions (jsOr0 r.allConversions) }

/-- The lookup `countryNames[countryCriterionId]` with its fallback to
the synthetic label `Unknown (<id>)` — a missing entry, and the falsy
empty string, both fall back. -/
def resolveGeoName (names : String → Option String) (id : String) : String :=
  match names id with
  | some v => if v = "" then "Unknown (" ++ id ++ ")" else v
  | none => "Unknown (" ++ id ++ ")"

/-- Add one exporter row to the `countryData` object (string-keyed plain
object: insertion order is preserved for these non-index keys). -/
def gBucketAdd : List (String × GStats) → String → GRow → List (String × GStats)
  | [], k, r => [(k, GStats.zero.addRow r)]
  | p :: ps, k, r =>
      if p.1 = k then (p.1, p.2.addRow r) :: ps else p :: gBucketAdd ps k r

/-- The exporter country aggregation loop (every fetched row is
aggregated; the cost filter lives in the GAQL query upstream). -/
def gAgg (names : String → Option String) (rows : List GRow) :
    List (String × GStats) :=
  rows.foldl (fun bs r => gBucketAdd bs (resolveGeoName names r.countryCriterionId) r) []

/-- One output row of the Top Countries sheet, in source column order. -/
structure GReport where
  country : String
  clicks : JNum
  impressions : JNum
  ctr : JNum
  avgCpc : JNum
  cost : JNum
  convValue : JNum
  roas : JNum
  conversions : JNum
  costPerConv : JNum
  convRate : JNum
  allConversions : JNum
deriving DecidableEq, Repr

/-- The derived-metric block of the `for (const country in countryData)`
loop: all five ratios guarded by `denominator > 0 ? ... : 0`. -/
def mkGReport (p : String × GStats) : GReport :=
  { country := p.1
    clicks := p.2.clicks
    impressions := p.2.impressions
    ctr := if jlt (.num 0) p.2.impressions then jdiv p.2.clicks p.2.impressions
           else .num 0
    avgCpc := if jlt (.num 0) p.2.clicks then jdiv p.2.cost p.2.clicks
              else .num 0
    cost := p.2.cost
    convValue := p.2.convValue
    roas := if jlt (.num 0) p.2.cost then jdiv p.2.convValue p.2.cost
            else .num 0
    conversions := p.2.conversions
    costPerConv := if jlt (.num 0) p.2.conversions then jdiv p.2.cost p.2.conversions
                   else .num 0
    convRate := if jlt (.num 0) p.2.clicks then jdiv p.2.conversions p.2.clicks
                else .num 0
    allConversions := p.2.allConversions }

/-- The comparator `(a, b) => b[5] - a[5]` (column 5 is `cost`). -/
def byCostDesc (a b : GReport) : Prop := jlt a.cost b.cost = false

instance : DecidableRel byCostDesc := fun a b =>
  inferInstanceAs (Decidable (jlt a.cost b.cost = false))

/-- The rows written to the Top Countries sheet: aggregate, derive, sort
by cost descending (stable sort). -/
def exportTopCountriesRows (names : String → Option String) (rows : List GRow) :
    List GReport :=
  ((gAgg names rows).map mkGReport).insertionSort byCostDesc

/-! ### Zero-guarded derived ratios -/

/-- A daily-email report row all of whose fields parsed to finite
numbers. -/
def CRow.wf (r : CRow) : Bool :=
  r.cost.isFinite && r.impressions.isFinite && r.clicks.isFinite &&
    r.conversions.isFinite

/-- All four running sums are finite numbers. -/
def Stats.finite (s : Stats) : Bool :=
  s.spend.isFinite && s.impressions.isFinite && s.clicks.isFinite &&
    s.conversions.isFinite

/-- An exporter row none of whose fields parsed to an infinity (`NaN`
is allowed: the exporter coerces it away with `|| 0`). -/
def GRow.noInf (r : GRow) : Bool :=
  !r.clicks.isInf && !r.impressions.isInf && !r.costMicros.isInf &&
    !r.convValue.isInf && !r.conversions.isInf && !r.allConversions.isInf

/-- All six exporter running sums are finite numbers. -/
def GStats.finite (s : GStats) : Bool :=
  s.clicks.isFinite && s.impressions.isFinite && s.cost.isFinite &&
    s.convValue.isFinite && s.conversions.isFinite && s.allConversions.isFinite

theorem jsOr0_finite {x : JNum} (hx : x.isInf = false) : (jsOr0 x).isFinite = true := by
  rcases x with _ | _ | _ | q <;> simp_all [jsOr0, jsTruthy, JNum.isInf, JNum.isFinite]
  by_cases hq : q = 0 <;> simp [hq, JNum.isFinite]

theorem jdiv_num_finite {n : JNum} (hn : n.isFinite = true) {d : ℚ} (hd : d ≠ 0) :
    (jdiv n (.num d)).isFinite = true := by
  rcases n with _ | _ | _ | q <;> simp_all [jdiv, JNum.isFinite, hd]

theorem guardedRatio_finite {n d : JNum} (hn : n.isFinite = true)
    (hd : d.isFinite = true) :
    (if jlt (.num 0) d then jdiv n d else .num 0).isFinite = true := by
  rcases d with _ | _ | _ | q
  · simp_all [JNum.isFinite]
  · simp_all [JNum.isFinite]
  · simp_all [JNum.isFinite]
  · by_cases hq : jlt (.num 0) (.num q)
    · have hq0 : q ≠ 0 := by
        simp only [jlt, decide_eq_true_eq] at hq
        exact ne_of_gt hq
      rw [if_pos hq]
      exact jdiv_num_finite hn hq0
    · rw [if_neg hq]; rfl

theorem guardedRatio_zero_denom {n : JNum} :
    (if jlt (.num 0) (JNum.num 0) then jdiv n (.num 0) else .num 0) = .num 0 := by
  simp [jlt]

theorem statsFinite_addRow {s : Stats} {r : CRow} (hs : s.finite = true)
    (hr : r.wf = true) : (s.addRow r).finite = true := by
  simp only [Stats.finite, Bool.and_eq_true] at hs
  simp only [CRow.wf, Bool.and_eq_true] at hr
  simp only [Stats.finite, Stats.addRow, Bool.and_eq_true]
  exact ⟨⟨⟨jadd_finite hs.1.1.1 hr.1.1.1, jadd_finite hs.1.1.2 hr.1.1.2⟩,
    jadd_finite hs.1.2 hr.1.2⟩, jadd_finite hs.2 hr.2⟩

theorem bucketAdd_finite {bs : List (String × Stats)} {k : String} {r : CRow}
    (hbs : ∀ p ∈ bs, p.2.finite = true) (hr : r.wf = true) :
    ∀ p ∈ bucketAdd bs k r, p.2.finite = true := by
  induction bs with
  | nil =>
      intro p hp
      simp only [bucketAdd, List.mem_singleton] at hp
      subst hp
      exact statsFinite_addRow (by rfl) hr
  | cons q qs ih =>
      intro p hp
      by_cases hq : q.1 = k
      · simp only [bucketAdd, if_pos hq, List.mem_cons] at hp
        rcases hp with hp | hp
        · subst hp
          exact statsFinite_addRow (hbs q (List.mem_cons_self q qs)) hr
        · exact hbs p (List.mem_cons_of_mem q hp)
      · simp only [bucketAdd, if_neg hq, List.mem_cons] at hp
        rcases hp with hp | hp
        · subst hp; exact hbs p (List.mem_cons_self p qs)
        · exact ih (fun x hx => hbs x (List.mem_cons_of_mem q hx)) p hp

theorem countryAgg_finite (locMap : String → Option String) :
    ∀ (rows : List CRow) (st : CountryAgg),
      rows.all CRow.wf = true →
      (∀ p ∈ st.buckets, p.2.finite = true) → st.totals.finite = true →
      (∀ p ∈ (rows.foldl (countryStep locMap) st).buckets, p.2.finite = true) ∧
        (rows.foldl (countryStep locMap) st).totals.finite = true := by
  intro rows
  induction rows with
  | nil => intro st _ hb ht; exact ⟨hb, ht⟩
  | cons r rs ih =>
      intro st hall hb ht
      simp only [List.all_cons, Bool.and_eq_true] at hall
      rw [List.foldl_cons]
      apply ih _ hall.2
      · intro p hp
        unfold countryStep at hp
        by_cases hc : jlt (.num 0) r.cost
        · rw [if_pos hc] at hp
          exact bucketAdd_finite hb hall.1 p hp
        · rw [if_neg hc] at hp
          exact hb p hp
      · unfold countryStep
        by_cases hc : jlt (.num 0) r.cost
        · rw [if_pos hc]
          exact statsFinite_addRow ht hall.1
        · rw [if_neg hc]
          exact ht

theorem gStatsFinite_addRow {s : GStats} {r : GRow} (hs : s.finite = true)
    (hr : r.noInf = true) : (s.addRow r).finite = true := by
  simp only [GStats.finite, Bool.and_eq_true] at hs
  simp only [GRow.noInf, Bool.and_eq_true, Bool.not_eq_true'] at hr
  obtain ⟨⟨⟨⟨⟨hs1, hs2⟩, hs3⟩, hs4⟩, hs5⟩, hs6⟩ := hs
  obtain ⟨⟨⟨⟨⟨hr1, hr2⟩, hr3⟩, hr4⟩, hr5⟩, hr6⟩ := hr
  have hcost : (jdiv (jsOr0 r.costMicros) (.num 1000000)).isFinite = true :=
    jdiv_num_finite (jsOr0_finite hr3) (by norm_num)
  simp only [GStats.finite, GStats.addRow, Bool.and_eq_true]
  exact ⟨⟨⟨⟨⟨jadd_finite hs1 (jsOr0_finite hr1), jadd_finite hs2 (jsOr0_finite hr2)⟩,
    jadd_finite hs3 hcost⟩, jadd_finite hs4 (jsOr0_finite hr4)⟩,
    jadd_finite hs5 (jsOr0_finite hr5)⟩, jadd_finite hs6 (jsOr0_finite hr6)⟩

theorem gBucketAdd_finite {bs : List (String × GStats)} {k : String} {r : GRow}
    (hbs : ∀ p ∈ bs, p.2.finite = true) (hr : r.noInf = true) :
    ∀ p ∈ gBucketAdd bs k r, p.2.finite = true := by
  induction bs with
  | nil =>
      intro p hp
      simp only [gBucketAdd, List.mem_singleton] at hp
      subst hp
      exact gStatsFinite_addRow (by rfl) hr
  | cons q qs ih =>
      intro p hp
      by_cases hq : q.1 = k
      · simp only [gBucketAdd, if_pos hq, List.mem_cons] at hp
        rcases hp with hp | hp
        · subst hp
          exact gStatsFinite_addRow (hbs q (List.mem_cons_self q qs)) hr
        · exact hbs p (List.mem_cons_of_mem q hp)
      · simp only [gBucketAdd, if_neg hq, List.mem_cons] at hp
        rcases hp with hp | hp
        · subst hp; exact hbs p (List.mem_cons_self p qs)
        · exact ih (fun x hx => hbs x (List.mem_cons_of_mem q hx)) p hp

theorem gAgg_finite (names : String → Option String) (rows : List GRow)
    (hall : rows.all GRow.noInf = true) :
    ∀ p ∈ gAgg names rows, p.2.finite = true := by
  suffices h : ∀ (rs : List GRow) (bs : List (String × GStats)),
      rs.all GRow.noInf = true → (∀ p ∈ bs, p.2.finite = true) →
      ∀ p ∈ rs.foldl
        (fun bs r => gBucketAdd bs (resolveGeoName names r.countryCriterionId) r) bs,
        p.2.finite = true by
    exact h rows [] hall (by intro p hp; cases hp)
  intro rs
  induction rs with
  | nil => intro bs _ hb; exact hb
  | cons r rs ih =>
      intro bs hall hb
      simp only [List.all_cons, Bool.and_eq_true] at hall
      rw [List.foldl_cons]
      exact ih _ hall.2 (gBucketAdd_finite hb hall.1)

theorem guardedRatio_eq_zero {n d : JNum} (hd : d = .num 0) :
    (if jlt (.num 0) d then jdiv n d else .num 0) = .num 0 := by
  subst hd; simp [jlt]

/-- C2 counterexample: the grand-total CTR of the daily email is the
unguarded `totals.clicks / totals.impressions`; on the empty report it
is `NaN` (`0/0`), not `0`; and with a record whose `Clicks` field is
malformed (`NaN`) but whose cost is positive, even the per-country `ctr`
is `NaN`. -/
theorem email_total_ctr_unguarded_counterexample :
    emailTotalCtr (getCountryData (fun _ => none) []) = JNum.nan ∧
    JNum.nan ≠ JNum.num 0 ∧
    (getCountryData (fun _ => none)
        [⟨"2840", .num 5, .num 10, .nan, .num 0⟩]).countries.map (fun c => c.ctr) =
      [JNum.nan] := by
  refine ⟨by with_unfolding_all rfl, by decide, by with_unfolding_all rfl⟩

/-- C2 (amended): for input records whose numeric fields parsed to
finite numbers (daily email) resp. to finite numbers or `NaN` (exporter,
whose `|| 0` coercion absorbs `NaN`), every guarded derived ratio —
per-country `ctr`/`cpc` and the TOTAL-row average CPC in the daily
email, and `ctr`, `avgCpc`, `roas`, `convRate`, `costPerConv` in the
exporter's Top Countries rows — is a finite number (never `NaN` or
infinite) and is exactly `0` when its denominator is `0`.  The daily
email's TOTAL-row CTR is excluded: it is computed without a guard
(see the counterexample). -/
theorem derived_ratios_zero_guarded
    (locMap : String → Option String) (rows : List CRow)
    (names : String → Option String) (grows : List GRow)
    (hw : rows.all CRow.wf = true) (hg : grows.all GRow.noInf = true) :
    (∀ c ∈ (getCountryData locMap rows).countries,
      (c.ctr.isFinite = true ∧ (c.impressions = .num 0 → c.ctr = .num 0)) ∧
      (c.cpc.isFinite = true ∧ (c.clicks = .num 0 → c.cpc = .num 0))) ∧
    ((emailTotalCpc (getCountryData locMap rows)).isFinite = true ∧
      ((getCountryData locMap rows).totals.clicks = .num 0 →
        emailTotalCpc (getCountryData locMap rows) = .num 0)) ∧
    (∀ g ∈ exportTopCountriesRows names grows,
      (g.ctr.isFinite = true ∧ (g.impressions = .num 0 → g.ctr = .num 0)) ∧
      (g.avgCpc.isFinite = true ∧ (g.clicks = .num 0 → g.avgCpc = .num 0)) ∧
      (g.roas.isFinite = true ∧ (g.cost = .num 0 → g.roas = .num 0)) ∧
      (g.convRate.isFinite = true ∧ (g.clicks = .num 0 → g.convRate = .num 0)) ∧
      (g.costPerConv.isFinite = true ∧
        (g.conversions = .num 0 → g.costPerConv = .num 0))) := by
  have hfin := countryAgg_finite locMap rows ⟨[], Stats.zero⟩ hw
    (by intro p hp; cases hp) (by rfl)
  refine ⟨?_, ?_, ?_⟩
  · intro c hc
    have hc' : c ∈ (countryAgg locMap rows).buckets.map mkCountryReport := by
      have := (List.mem_insertionSort bySpendDesc).1 hc
      exact this
    obtain ⟨p, hp, hpc⟩ := List.mem_map.1 hc'
    have hpf := hfin.1 p hp
    simp only [Stats.finite, Bool.and_eq_true] at hpf
    obtain ⟨⟨⟨hsp, him⟩, hcl⟩, _⟩ := hpf
    subst hpc
    refine ⟨⟨guardedRatio_finite hcl him, ?_⟩, ⟨guardedRatio_finite hsp hcl, ?_⟩⟩
    · intro h0; exact guardedRatio_eq_zero h0
    · intro h0; exact guardedRatio_eq_zero h0
  · have htf := hfin.2
    simp only [Stats.finite, Bool.and_eq_true] at htf
    obtain ⟨⟨⟨hsp, _⟩, hcl⟩, _⟩ := htf
    constructor
    · exact guardedRatio_finite hsp hcl
    · intro h0
      unfold emailTotalCpc
      exact guardedRatio_eq_zero h0
  · intro g hg'
    have hg'' : g ∈ (gAgg names grows).map mkGReport :=
      (List.mem_insertionSort byCostDesc).1 hg'
    obtain ⟨p, hp, hpg⟩ := List.mem_map.1 hg''
    have hpf := gAgg_finite names grows hg p hp
    simp only [GStats.finite, Bool.and_eq_true] at hpf
    obtain ⟨⟨⟨⟨⟨hcl, him⟩, hco⟩, hcv⟩, hcn⟩, _⟩ := hpf
    subst hpg
    refine ⟨⟨guardedRatio_finite hcl him, fun h0 => guardedRatio_eq_zero h0⟩,
      ⟨guardedRatio_finite hco hcl, fun h0 => guardedRatio_eq_zero h0⟩,
      ⟨guardedRatio_finite hcv hco, fun h0 => guardedRatio_eq_zero h0⟩,
      ⟨guardedRatio_finite hcn hcl, fun h0 => guardedRatio_eq_zero h0⟩,
      ⟨guardedRatio_finite hco hcn, fun h0 => guardedRatio_eq_zero h0⟩⟩

/-- Concrete instantiation of the amended C2 statement: one well-formed
daily row and one exporter row with a malformed (`NaN`) clicks field. -/
theorem derived_ratios_zero_guarded_witness :
    (([⟨"2840", .num 5, .num 10, .num 2, .num 1⟩] : List CRow).all CRow.wf = true) ∧
    (([⟨"2250", .nan, .num 10, .num 3000000, .num 1, .num 0, .num 0⟩] :
        List GRow).all GRow.noInf = true) ∧
    ((∀ c ∈ (getCountryData (fun _ => some "United States")
        [⟨"2840", .num 5, .num 10, .num 2, .num 1⟩]).countries,
      (c.ctr.isFinite = true ∧ (c.impressions = .num 0 → c.ctr = .num 0)) ∧
      (c.cpc.isFinite = true ∧ (c.clicks = .num 0 → c.cpc = .num 0))) ∧
    ((emailTotalCpc (getCountryData (fun _ => some "United States")
        [⟨"2840", .num 5, .num 10, .num 2, .num 1⟩])).isFinite = true ∧
      ((getCountryData (fun _ => some "United States")
          [⟨"2840", .num 5, .num 10, .num 2, .num 1⟩]).totals.clicks = .num 0 →
        emailTotalCpc (getCountryData (fun _ => some "United States")
          [⟨"2840", .num 5, .num 10, .num 2, .num 1⟩]) = .num 0)) ∧
    (∀ g ∈ exportTopCountriesRows (fun _ => some "France")
        [⟨"2250", .nan, .num 10, .num 3000000, .num 1, .num 0, .num 0⟩],
      (g.ctr.isFinite = true ∧ (g.impressions = .num 0 → g.ctr = .num 0)) ∧
      (g.avgCpc.isFinite = true ∧ (g.clicks = .num 0 → g.avgCpc = .num 0)) ∧
      (g.roas.isFinite = true ∧ (g.cost = .num 0 → g.roas = .num 0)) ∧
      (g.convRate.isFinite = true ∧ (g.clicks = .num 0 → g.convRate = .num 0)) ∧
      (g.costPerConv.isFinite = true ∧
        (g.conversions = .num 0 → g.costPerConv = .num 0)))) :=
  ⟨by decide, by decide,
    derived_ratios_zero_guarded (fun _ => some "United States")
      [⟨"2840", .num 5, .num 10, .num 2, .num 1⟩]
      (fun _ => some "France")
      [⟨"2250", .nan, .num 10, .num 3000000, .num 1, .num 0, .num 0⟩]
      (by decide) (by decide)⟩

/-! ### Ordering: descending by spend, ties by first appearance -/

/-- Keep the first occurrence of every key, given the keys already
seen.  (A JS `Map`, and a plain object with string keys, iterate in
insertion order.) -/
def dedupFirstAux (seen : List String) : List String → List String
  | [] => []
  | k :: ks =>
      if k ∈ seen then dedupFirstAux seen ks
      else k :: dedupFirstAux (k :: seen) ks

/-- The first-appearance order of the keys of a list. -/
def dedupFirst (l : List String) : List String := dedupFirstAux [] l

/-- The country names of the accepted (positive-spend) records, in
input order. -/
def acceptedCountryNames (locMap : String → Option String) (rows : List CRow) :
    List String :=
  (rows.filter (fun r => jlt (.num 0) r.cost)).map
    (fun r => resolveCountry locMap r.criteriaId)

theorem dedupFirstAux_congr {s₁ s₂ : List String}
    (h : ∀ x, x ∈ s₁ ↔ x ∈ s₂) : ∀ l, dedupFirstAux s₁ l = dedupFirstAux s₂ l := by
  intro l
  induction l generalizing s₁ s₂ with
  | nil => rfl
  | cons k ks ih =>
      by_cases hk : k ∈ s₁
      · rw [dedupFirstAux, dedupFirstAux, if_pos hk, if_pos ((h k).1 hk)]
        exact ih h
      · rw [dedupFirstAux, dedupFirstAux, if_neg hk, if_neg (fun hx => hk ((h k).2 hx))]
        congr 1
        apply ih
        intro x
        simp only [List.mem_cons]
        exact or_congr Iff.rfl (h x)

theorem bucketAdd_keys (bs : List (String × Stats)) (k : String) (r : CRow) :
    (bucketAdd bs k r).map (fun p => p.1) =
      if k ∈ bs.map (fun p => p.1) then bs.map (fun p => p.1)
      else bs.map (fun p => p.1) ++ [k] := by
  induction bs with
  | nil => simp [bucketAdd]
  | cons q qs ih =>
      by_cases hq : q.1 = k
      · simp [bucketAdd, hq]
      · simp only [bucketAdd, if_neg hq, List.map_cons, ih, List.mem_cons]
        by_cases hk : k ∈ qs.map (fun p => p.1)
        · rw [if_pos hk, if_pos (Or.inr hk)]
        · have hcond : ¬(k = q.1 ∨ k ∈ qs.map (fun p => p.1)) := by
            rintro (h | h)
            · exact hq h.symm
            · exact hk h
          rw [if_neg hk, if_neg hcond, List.cons_append]

theorem countryAgg_keys_inv (locMap : String → Option String) :
    ∀ (rows : List CRow) (st : CountryAgg),
      (rows.foldl (countryStep locMap) st).buckets.map (fun p => p.1) =
        st.buckets.map (fun p => p.1) ++
          dedupFirstAux (st.buckets.map (fun p => p.1))
            (acceptedCountryNames locMap rows) := by
  intro rows
  induction rows with
  | nil => intro st; simp [acceptedCountryNames, dedupFirstAux]
  | cons r rs ih =>
      intro st
      by_cases hc : jlt (.num 0) r.cost
      · have hnames : acceptedCountryNames locMap (r :: rs) =
            resolveCountry locMap r.criteriaId :: acceptedCountryNames locMap rs := by
          simp [acceptedCountryNames, List.filter_cons, hc]
        rw [List.foldl_cons, hnames]
        have hstep : countryStep locMap st r =
            { buckets := bucketAdd st.buckets (resolveCountry locMap r.criteriaId) r
              totals := st.totals.addRow r } := by
          unfold countryStep; rw [if_pos hc]
        rw [ih, hstep]
        simp only
        rw [bucketAdd_keys]
        by_cases hk : resolveCountry locMap r.criteriaId ∈ st.buckets.map (fun p => p.1)
        · rw [if_pos hk, dedupFirstAux, if_pos hk]
        · rw [if_neg hk, dedupFirstAux, if_neg hk, List.append_assoc]
          congr 1
          rw [List.singleton_append]
          congr 1
          apply dedupFirstAux_congr
          intro x
          simp [List.mem_append, List.mem_cons, or_comm]
      · have hnames : acceptedCountryNames locMap (r :: rs) =
            acceptedCountryNames locMap rs := by
          simp [acceptedCountryNames, List.filter_cons, hc]
        have hskip : countryStep locMap st r = st := by
          unfold countryStep; rw [if_neg hc]
        rw [List.foldl_cons, hskip, hnames, ih]

theorem countryAgg_keys (locMap : String → Option String) (rows : List CRow) :
    (countryAgg locMap rows).buckets.map (fun p => p.1) =
      dedupFirst (acceptedCountryNames locMap rows) := by
  have := countryAgg_keys_inv locMap rows ⟨[], Stats.zero⟩
  simpa [countryAgg, dedupFirst] using this

/-- The finite-number content of a `JNum`, `0` otherwise. -/
def JNum.toQ : JNum → ℚ
  | .num q => q
  | _ => 0

theorem jlt_irrefl (x : JNum) : jlt x x = false := by
  rcases x with _ | _ | _ | q <;> simp [jlt]

theorem bySpendDesc_iff_of_finite {a b : CountryReport}
    (ha : a.spend.isFinite = true) (hb : b.spend.isFinite = true) :
    bySpendDesc a b ↔ JNum.toQ b.spend ≤ JNum.toQ a.spend := by
  rcases hsa : a.spend with _ | _ | _ | qa
  · rw [hsa] at ha; simp [JNum.isFinite] at ha
  · rw [hsa] at ha; simp [JNum.isFinite] at ha
  · rw [hsa] at ha; simp [JNum.isFinite] at ha
  rcases hsb : b.spend with _ | _ | _ | qb
  · rw [hsb] at hb; simp [JNum.isFinite] at hb
  · rw [hsb] at hb; simp [JNum.isFinite] at hb
  · rw [hsb] at hb; simp [JNum.isFinite] at hb
  simp [bySpendDesc, hsa, hsb, jlt, JNum.toQ, not_lt]

theorem countries_pairwise_of_wf (locMap : String → Option String)
    (rows : List CRow) (hw : rows.all CRow.wf = true) :
    (getCountryData locMap rows).countries.Pairwise bySpendDesc := by
  have hfin := countryAgg_finite locMap rows ⟨[], Stats.zero⟩ hw
    (by intro p hp; cases hp) (by rfl)
  have hrep : ∀ c ∈ (countryAgg locMap rows).buckets.map mkCountryReport,
      c.spend.isFinite = true := by
    intro c hc
    obtain ⟨p, hp, hpc⟩ := List.mem_map.1 hc
    have := hfin.1 p hp
    simp only [Stats.finite, Bool.and_eq_true] at this
    rw [← hpc]
    exact this.1.1.1
  set l := (countryAgg locMap rows).buckets.map mkCountryReport with hl
  haveI : DecidableRel (fun a b : CountryReport => JNum.toQ b.spend ≤ JNum.toQ a.spend) :=
    fun a b => inferInstanceAs (Decidable (_ ≤ _))
  have heq : l.insertionSort bySpendDesc =
      l.insertionSort (fun a b => JNum.toQ b.spend ≤ JNum.toQ a.spend) := by
    have hmap := List.map_insertionSort bySpendDesc
      (fun a b : CountryReport => JNum.toQ b.spend ≤ JNum.toQ a.spend) id l
      (fun a ha b hb => by
        simpa using bySpendDesc_iff_of_finite (hrep a ha) (hrep b hb))
    simpa using hmap
  have hcountries : (getCountryData locMap rows).countries =
      l.insertionSort bySpendDesc := rfl
  rw [hcountries, heq]
  haveI : IsTotal CountryReport (fun a b => JNum.toQ b.spend ≤ JNum.toQ a.spend) :=
    ⟨fun a b => le_total _ _⟩
  haveI : IsTrans CountryReport (fun a b => JNum.toQ b.spend ≤ JNum.toQ a.spend) :=
    ⟨fun _ _ _ hab hbc => le_trans hbc hab⟩
  have hsorted := List.sorted_insertionSort
    (fun a b : CountryReport => JNum.toQ b.spend ≤ JNum.toQ a.spend) l
  apply List.Pairwise.imp_of_mem ?_ hsorted
  intro a b ha hb hs
  have ha' : a ∈ l := (List.mem_insertionSort _).1 ha
  have hb' : b ∈ l := (List.mem_insertionSort _).1 hb
  exact (bySpendDesc_iff_of_finite (hrep a ha') (hrep b hb')).2 hs

theorem byCostDesc_iff_of_finite {a b : GReport}
    (ha : a.cost.isFinite = true) (hb : b.cost.isFinite = true) :
    byCostDesc a b ↔ JNum.toQ b.cost ≤ JNum.toQ a.cost := by
  rcases hsa : a.cost with _ | _ | _ | qa
  · rw [hsa] at ha; simp [JNum.isFinite] at ha
  · rw [hsa] at ha; simp [JNum.isFinite] at ha
  · rw [hsa] at ha; simp [JNum.isFinite] at ha
  rcases hsb : b.cost with _ | _ | _ | qb
  · rw [hsb] at hb; simp [JNum.isFinite] at hb
  · rw [hsb] at hb; simp [JNum.isFinite] at hb
  · rw [hsb] at hb; simp [JNum.isFinite] at hb
  simp [byCostDesc, hsa, hsb, jlt, JNum.toQ, not_lt]

theorem gReports_pairwise_of_noInf (names : String → Option String)
    (grows : List GRow) (hg : grows.all GRow.noInf = true) :
    (exportTopCountriesRows names grows).Pairwise byCostDesc := by
  have hrep : ∀ c ∈ (gAgg names grows).map mkGReport, c.cost.isFinite = true := by
    intro c hc
    obtain ⟨p, hp, hpc⟩ := List.mem_map.1 hc
    have := gAgg_finite names grows hg p hp
    simp only [GStats.finite, Bool.and_eq_true] at this
    rw [← hpc]
    exact this.1.1.1.2
  set l := (gAgg names grows).map mkGReport with hl
  haveI : DecidableRel (fun a b : GReport => JNum.toQ b.cost ≤ JNum.toQ a.cost) :=
    fun a b => inferInstanceAs (Decidable (_ ≤ _))
  have heq : l.insertionSort byCostDesc =
      l.insertionSort (fun a b => JNum.toQ b.cost ≤ JNum.toQ a.cost) := by
    have hmap := List.map_insertionSort byCostDesc
      (fun a b : GReport => JNum.toQ b.cost ≤ JNum.toQ a.cost) id l
      (fun a ha b hb => by
        simpa using byCostDesc_iff_of_finite (hrep a ha) (hrep b hb))
    simpa using hmap
  show (l.insertionSort byCostDesc).Pairwise byCostDesc
  rw [heq]
  haveI : IsTotal GReport (fun a b => JNum.toQ b.cost ≤ JNum.toQ a.cost) :=
    ⟨fun a b => le_total _ _⟩
  haveI : IsTrans GReport (fun a b => JNum.toQ b.cost ≤ JNum.toQ a.cost) :=
    ⟨fun _ _ _ hab hbc => le_trans hbc hab⟩
  have hsorted := List.sorted_insertionSort
    (fun a b : GReport => JNum.toQ b.cost ≤ JNum.toQ a.cost) l
  apply List.Pairwise.imp_of_mem ?_ hsorted
  intro a b ha hb hs
  have ha' : a ∈ l := (List.mem_insertionSort _).1 ha
  have hb' : b ∈ l := (List.mem_insertionSort _).1 hb
  exact (byCostDesc_iff_of_finite (hrep a ha') (hrep b hb')).2 hs

theorem gBucketAdd_keys (bs : List (String × GStats)) (k : String) (r : GRow) :
    (gBucketAdd bs k r).map (fun p => p.1) =
      if k ∈ bs.map (fun p => p.1) then bs.map (fun p => p.1)
      else bs.map (fun p => p.1) ++ [k] := by
  induction bs with
  | nil => simp [gBucketAdd]
  | cons q qs ih =>
      by_cases hq : q.1 = k
      · simp [gBucketAdd, hq]
      · simp only [gBucketAdd, if_neg hq, List.map_cons, ih, List.mem_cons]
        by_cases hk : k ∈ qs.map (fun p => p.1)
        · rw [if_pos hk, if_pos (Or.inr hk)]
        · have hcond : ¬(k = q.1 ∨ k ∈ qs.map (fun p => p.1)) := by
            rintro (h | h)
            · exact hq h.symm
            · exact hk h
          rw [if_neg hk, if_neg hcond, List.cons_append]

theorem gAgg_keys_inv (names : String → Option String) :
    ∀ (rows : List GRow) (bs : List (String × GStats)),
      ((rows.foldl
          (fun bs r => gBucketAdd bs (resolveGeoName names r.countryCriterionId) r)
          bs).map (fun p => p.1)) =
        bs.map (fun p => p.1) ++
          dedupFirstAux (bs.map (fun p => p.1))
            (rows.map (fun r => resolveGeoName names r.countryCriterionId)) := by
  intro rows
  induction rows with
  | nil => intro bs; simp [dedupFirstAux]
  | cons r rs ih =>
      intro bs
      rw [List.foldl_cons, List.map_cons, ih]
      rw [gBucketAdd_keys]
      by_cases hk : resolveGeoName names r.countryCriterionId ∈ bs.map (fun p => p.1)
      · rw [if_pos hk, dedupFirstAux, if_pos hk]
      · rw [if_neg hk, dedupFirstAux, if_neg hk, List.append_assoc]
        congr 1
        rw [List.singleton_append]
        congr 1
        apply dedupFirstAux_congr
        intro x
        simp [List.mem_append, List.mem_cons, or_comm]

theorem gAgg_keys (names : String → Option String) (rows : List GRow) :
    (gAgg names rows).map (fun p => p.1) =
      dedupFirst (rows.map (fun r => resolveGeoName names r.countryCriterionId)) := by
  have := gAgg_keys_inv names rows []
  simpa [gAgg, dedupFirst] using this

/-- C4: both per-key aggregations emit their rows sorted by summed
cost/spend descending; ties keep first-appearance order (the stable sort
applied to the map/object traversal, which is itself in first-appearance
order of the keys): the output is a permutation of the derived bucket
rows, pairwise descending, pairs of equal-cost rows keep their bucket
order, and the bucket key order is the first-appearance order of the
(accepted) input keys. -/
theorem aggregation_sorted_by_cost_desc_stable
    (locMap : String → Option String) (rows : List CRow)
    (names : String → Option String) (grows : List GRow)
    (hw : rows.all CRow.wf = true) (hg : grows.all GRow.noInf = true) :
    (List.Perm (getCountryData locMap rows).countries
        ((countryAgg locMap rows).buckets.map mkCountryReport)) ∧
    ((getCountryData locMap rows).countries.Pairwise bySpendDesc) ∧
    (∀ a b : CountryReport,
      List.Sublist [a, b] ((countryAgg locMap rows).buckets.map mkCountryReport) →
      a.spend = b.spend →
      List.Sublist [a, b] (getCountryData locMap rows).countries) ∧
    ((countryAgg locMap rows).buckets.map (fun p => p.1) =
      dedupFirst (acceptedCountryNames locMap rows)) ∧
    (List.Perm (exportTopCountriesRows names grows)
        ((gAgg names grows).map mkGReport)) ∧
    ((exportTopCountriesRows names grows).Pairwise byCostDesc) ∧
    (∀ a b : GReport,
      List.Sublist [a, b] ((gAgg names grows).map mkGReport) →
      a.cost = b.cost →
      List.Sublist [a, b] (exportTopCountriesRows names grows)) ∧
    ((gAgg names grows).map (fun p => p.1) =
      dedupFirst (grows.map (fun r => resolveGeoName names r.countryCriterionId))) := by
  refine ⟨List.perm_insertionSort _ _, countries_pairwise_of_wf locMap rows hw,
    ?_, countryAgg_keys locMap rows, List.perm_insertionSort _ _,
    gReports_pairwise_of_noInf names grows hg, ?_, gAgg_keys names grows⟩
  · intro a b hsub heq
    have hab : bySpendDesc a b := by
      show jlt a.spend b.spend = false
      rw [heq]
      exact jlt_irrefl b.spend
    exact List.pair_sublist_insertionSort hab hsub
  · intro a b hsub heq
    have hab : byCostDesc a b := by
      show jlt a.cost b.cost = false
      rw [heq]
      exact jlt_irrefl b.cost
    exact List.pair_sublist_insertionSort hab hsub

/-- Concrete instantiation of C4 at the specification's example:
records US 50, US 30, FR 40 yield buckets US 80 and FR 40, output order
`[US, FR]`. -/
theorem aggregation_sorted_by_cost_desc_stable_witness :
    (([⟨"US", .num 50, .num 0, .num 0, .num 0⟩,
       ⟨"US", .num 30, .num 0, .num 0, .num 0⟩,
       ⟨"FR", .num 40, .num 0, .num 0, .num 0⟩] : List CRow).all CRow.wf = true) ∧
    (([] : List GRow).all GRow.noInf = true) ∧
    ((getCountryData (fun id => some id)
        [⟨"US", .num 50, .num 0, .num 0, .num 0⟩,
         ⟨"US", .num 30, .num 0, .num 0, .num 0⟩,
         ⟨"FR", .num 40, .num 0, .num 0, .num 0⟩]).countries.map
      (fun c => (c.name, c.spend)) = [("US", JNum.num 80), ("FR", JNum.num 40)]) ∧
    ((getCountryData (fun id => some id)
        [⟨"US", .num 50, .num 0, .num 0, .num 0⟩,
         ⟨"US", .num 30, .num 0, .num 0, .num 0⟩,
         ⟨"FR", .num 40, .num 0, .num 0, .num 0⟩]).countries.Pairwise bySpendDesc) :=
  ⟨by decide, by decide, by with_unfolding_all rfl,
    (aggregation_sorted_by_cost_desc_stable (fun id => some id)
      [⟨"US", .num 50, .num 0, .num 0, .num 0⟩,
       ⟨"US", .num 30, .num 0, .num 0, .num 0⟩,
       ⟨"FR", .num 40, .num 0, .num 0, .num 0⟩]
      (fun id => some id) [] (by decide) (by decide)).2.1⟩

/-! ## `src/performance-dashboard-exporter.js`, second script:
new search queries (set difference of yesterday against 180 days) -/

/-- One `search_term_view` row, numeric fields as `parseInt` results
(`none` = `NaN`; `parseInt` never yields an infinity). -/
structure SRow where
  searchTerm : String
  impressions : Option ℤ
  clicks : Option ℤ
  costMicros : Option ℤ
  campaignId : String
  campaignName : String
  adGroupId : String
  adGroupName : String
deriving DecidableEq, Repr

/-- `String.prototype.toLowerCase`, modelled by `String.toLower`. -/
def jsToLower (s : String) : String := s.toLower

/-- One element of `yesterdayData`.  `cost` carries the numeric value
`(parseInt(cost_micros) || 0) / 1000000`; the script stores it
`toFixed(2)`-formatted, which is presentation only. -/
structure QItem where
  query : String
  origQuery : String
  impressions : ℤ
  clicks : ℤ
  cost : ℚ
  campaignId : String
  campaignName : String
  adGroupId : String
  adGroupName : String
deriving DecidableEq, Repr

/-- Building one `yesterdayData` element: the key is the lower-cased
term, `parseInt(x) || 0` coerces a `NaN` parse to `0` (and maps a parsed
`0` to `0` as well). -/
def buildItem (r : SRow) : QItem :=
  { query := jsToLower r.searchTerm
    origQuery := r.searchTerm
    impressions := r.impressions.getD 0
    clicks := r.clicks.getD 0
    cost := (r.costMicros.getD 0 : ℚ) / 1000000
    campaignId := r.campaignId
    campaignName := r.campaignName
    adGroupId := r.adGroupId
    adGroupName := r.adGroupName }

/-- The `priorQueries` set: lower-cased history terms (a JS `Set`;
membership is what the script uses, so a list model suffices). -/
def priorQueries (history : List String) : List String := history.map jsToLower

/-- `yesterdayData`: every recent row, mapped. -/
def yesterdayData (recent : List SRow) : List QItem := recent.map buildItem

/-- `newData`: recent items whose lower-cased term is not in the
history set. -/
def newData (recent : List SRow) (history : List String) : List QItem :=
  (yesterdayData recent).filter (fun it => !(priorQueries history).contains it.query)

/-- The comparator `(a, b) => b.clicks - a.clicks` on items. -/
def byClicksDescItem (a b : QItem) : Prop := b.clicks ≤ a.clicks

instance : DecidableRel byClicksDescItem := fun a b =>
  inferInstanceAs (Decidable (b.clicks ≤ a.clicks))

/-- `emailData`: the sorted new items with strictly positive clicks. -/
def emailData (recent : List SRow) (history : List String) : List QItem :=
  ((newData recent history).insertionSort byClicksDescItem).filter
    (fun it => 0 < it.clicks)

/-- The campaign keys of `campaignToItems`, in first-appearance order
(JS `Map` iteration order). -/
def campaignKeys (items : List QItem) : List String :=
  dedupFirst (items.map (fun it => it.campaignName))

/-- The items pushed for one campaign, in encounter order. -/
def campaignItems (items : List QItem) (k : String) : List QItem :=
  items.filter (fun it => it.campaignName = k)

/-- `campaignTotals.get(k)`: the summed clicks of a campaign's items. -/
def campaignTotal (items : List QItem) (k : String) : ℤ :=
  ((campaignItems items k).map (fun it => it.clicks)).sum

/-- The campaign comparator: total clicks descending, then
`localeCompare` ascending (modelled as code-point order on strings). -/
def byCampaignOrder (items : List QItem) (a b : String) : Prop :=
  campaignTotal items b < campaignTotal items a ∨
    (campaignTotal items a = campaignTotal items b ∧ a ≤ b)

instance (items : List QItem) : DecidableRel (byCampaignOrder items) := fun a b =>
  inferInstanceAs (Decidable (_ ∨ _))

/-- `sortedCampaigns`. -/
def sortedCampaigns (items : List QItem) : List String :=
  (campaignKeys items).insertionSort (byCampaignOrder items)

/-- The grouped email body: campaigns in sorted order, each with its
items re-sorted by clicks descending. -/
def groupedCampaigns (items : List QItem) : List (String × List QItem) :=
  (sortedCampaigns items).map
    (fun c => (c, (campaignItems items c).insertionSort byClicksDescItem))

/-- The body of one sent email. -/
inductive EmailBody where
  /-- The notice sent when no new query has positive clicks, pointing
  at the sheet. -/
  | fallbackNotice : EmailBody
  /-- The grouped per-campaign tables. -/
  | groupedReport : List (String × List QItem) → EmailBody
deriving DecidableEq, Repr

/-- The observable effects of one run: rows appended to the sheet
(after the header), emails sent, log lines. -/
structure WorkflowRun where
  sheetRows : List QItem
  emails : List EmailBody
  logs : List String
deriving DecidableEq, Repr

/-- The `main` of the new-search-queries script.  `mailer` is the
behaviour of `MailApp.sendEmail` during the run; the script does not
wrap its two send calls in `try`/`catch`, so a mail failure propagates
(`Except.error`). -/
def runNewQueryWorkflow (mailer : Except String Unit)
    (recent : List SRow) (history : List String) : Except String WorkflowRun :=
  let nd0 := newData recent history
  if nd0.isEmpty then .ok ⟨[], [], ["No new search queries found."]⟩
  else
    let nd := nd0.insertionSort byClicksDescItem
    let ed := nd.filter (fun it => 0 < it.clicks)
    if ed.isEmpty then
      match mailer with
      | .error e => .error e
      | .ok _ => .ok ⟨nd, [.fallbackNotice],
          ["Report generated and sent. No queries with >0 clicks."]⟩
    else
      match mailer with
      | .error e => .error e
      | .ok _ => .ok ⟨nd, [.groupedReport (groupedCampaigns ed)],
          ["Report generated and sent. New queries: " ++ toString nd.length ++
            "; Email queries (>0 clicks): " ++ toString ed.length]⟩

/-! ### The two guarded senders of the other scripts -/

/-- `sendEmailReport` of the daily country email: the send is inside
`try`/`catch`, so the function never lets a mail failure escape; it
returns its console logs. -/
def sendEmailReport (mailer : Except String Unit) : Except String (List String) :=
  match mailer with
  | .ok _ => .ok []
  | .error e => .ok ["Error sending email: " ++ e]

/-- `sendCompletionEmail` of the dashboard exporter: invalid or
placeholder recipients short-circuit with a log; otherwise the send is
inside `try`/`catch` and a failure is logged, never rethrown. -/
def sendCompletionEmail (mailer : Except String Unit) (recipients : String) :
    Except String (List String) :=
  if recipients.trim = "" ∨ recipients = "your-email@example.com" then
    .ok ["Email notification is enabled but no valid recipient email address is configured."]
  else
    match mailer with
    | .ok _ => .ok ["Completion email sent to " ++ recipients]
    | .error e => .ok ["Failed to send email: " ++ e]

/-! ### New-query detection -/

/-- C3: an item is in `newData` exactly when it comes from a recent row
whose lower-cased search term matches no lower-cased history term; a
term present in both windows is excluded, a term present only in the
recent window is included. -/
theorem new_query_detection (recent : List SRow) (history : List String)
    (it : QItem) :
    it ∈ newData recent history ↔
      ∃ r ∈ recent, it = buildItem r ∧
        ∀ h ∈ history, jsToLower h ≠ jsToLower r.searchTerm := by
  unfold newData yesterdayData priorQueries
  simp only [List.mem_filter, List.mem_map, Bool.not_eq_eq_eq_not, Bool.not_true,
    List.contains, List.elem_eq_mem, decide_eq_false_iff_not, List.mem_map]
  constructor
  · rintro ⟨⟨r, hr, hrit⟩, hflt⟩
    refine ⟨r, hr, hrit.symm, ?_⟩
    intro h hh heq
    apply hflt
    refine ⟨h, hh, ?_⟩
    rw [heq, ← hrit]
    rfl
  · rintro ⟨r, hr, hrit, hnew⟩
    subst hrit
    refine ⟨⟨r, hr, rfl⟩, ?_⟩
    rintro ⟨h, hh, hxh⟩
    exact hnew h hh hxh

/-! ### Early exit and mail failures -/

/-- C7: with an empty recent window, or when no recent record is new,
the workflow stops after a single log line: no sheet rows, no emails,
and a successful (non-error) result — whatever the mail facility would
have done. -/
theorem empty_new_queries_early_exit (mailer : Except String Unit)
    (recent : List SRow) (history : List String)
    (h : recent = [] ∨ newData recent history = []) :
    runNewQueryWorkflow mailer recent history =
      .ok ⟨[], [], ["No new search queries found."]⟩ := by
  have hnil : newData recent history = [] := by
    rcases h with h | h
    · subst h; rfl
    · exact h
  unfold runNewQueryWorkflow
  rw [hnil]
  rfl

/-- Concrete instantiation of C7: an empty recent window, a non-empty
history, and a failing mail facility. -/
theorem empty_new_queries_early_exit_witness :
    (([] : List SRow) = [] ∨ newData [] ["running shoes"] = []) ∧
    runNewQueryWorkflow (.error "mail down") [] ["running shoes"] =
      .ok ⟨[], [], ["No new search queries found."]⟩ :=
  ⟨Or.inl rfl,
    empty_new_queries_early_exit (.error "mail down") [] ["running shoes"]
      (Or.inl rfl)⟩

/-- C8 counterexample: in the new-search-queries script the
`MailApp.sendEmail` call is not wrapped in `try`/`catch`; with one new
clicked query and a failing mail facility, the whole invocation aborts
with the mail error instead of catching it. -/
theorem mail_failure_propagates_counterexample :
    runNewQueryWorkflow (.error "mail down")
      [⟨"new shoes", some 100, some 3, some 2500000, "c1", "Campaign A", "g1", "AdGroup 1"⟩]
      [] = .error "mail down" := by
  with_unfolding_all rfl

/-- C8 (amended): the daily country email's `sendEmailReport` and the
exporter's `sendCompletionEmail` catch and log a mail failure — they
never propagate it (they always return `ok`) — while the
new-search-queries script's unguarded sends propagate the failure
whenever the script has new queries to report. -/
theorem notification_failures_caught (mailer : Except String Unit)
    (recipients : String) (e : String) (recent : List SRow)
    (history : List String) (hne : newData recent history ≠ []) :
    (sendEmailReport mailer).isOk = true ∧
    (sendCompletionEmail mailer recipients).isOk = true ∧
    runNewQueryWorkflow (.error e) recent history = .error e := by
  refine ⟨?_, ?_, ?_⟩
  · rcases mailer with e' | u <;> rfl
  · unfold sendCompletionEmail
    by_cases hr : recipients.trim = "" ∨ recipients = "your-email@example.com"
    · rw [if_pos hr]; rfl
    · rw [if_neg hr]
      rcases mailer with e' | u <;> rfl
  · unfold runNewQueryWorkflow
    have hfalse : (newData recent history).isEmpty = false := by
      rcases hd : newData recent history with _ | ⟨x, xs⟩
      · exact absurd hd hne
      · rfl
    simp only [hfalse, Bool.false_eq_true, if_false]
    by_cases hed : (((newData recent history).insertionSort byClicksDescItem).filter
        (fun it => 0 < it.clicks)).isEmpty
    · simp only [hed, if_true]
    · simp only [hed, Bool.false_eq_true, if_false]

/-- Concrete instantiation of the amended C8 statement: a failing mail
facility, a valid recipient, and one new clicked query. -/
theorem notification_failures_caught_witness :
    (newData
        [⟨"new shoes", some 100, some 3, some 2500000, "c1", "Campaign A", "g1", "AdGroup 1"⟩]
        [] ≠ []) ∧
    ((sendEmailReport (.error "smtp refused")).isOk = true ∧
      (sendCompletionEmail (.error "smtp refused") "ops@example.org").isOk = true ∧
      runNewQueryWorkflow (.error "smtp refused")
        [⟨"new shoes", some 100, some 3, some 2500000, "c1", "Campaign A", "g1", "AdGroup 1"⟩]
        [] = .error "smtp refused") :=
  ⟨by with_unfolding_all decide,
    notification_failures_caught (.error "smtp refused") "ops@example.org"
      "smtp refused"
      [⟨"new shoes", some 100, some 3, some 2500000, "c1", "Campaign A", "g1", "AdGroup 1"⟩]
      [] (by with_unfolding_all decide)⟩

/-! ### Campaign grouping of the email body -/

/-- The specification's campaign-grouping example: items with clicks
A:5, A:3, B:10, in that input order. -/
def exNewItems : List QItem :=
  [⟨"q1", "Q1", 0, 5, 0, "c1", "A", "g1", "G1"⟩,
   ⟨"q2", "Q2", 0, 3, 0, "c1", "A", "g1", "G1"⟩,
   ⟨"q3", "Q3", 0, 10, 0, "c2", "B", "g2", "G2"⟩]

/-- C5: campaigns are grouped by name; the campaign order is total
clicks descending with name-ascending tie-break; within each campaign
the items are exactly that campaign's items, re-sorted by clicks
descending; and on the example (clicks A:5, A:3, B:10) the totals are
A:8 and B:10, the campaign order is B then A, and A's items keep the
order 5, 3. -/
theorem campaign_grouping_order (items : List QItem) :
    List.Perm (sortedCampaigns items) (campaignKeys items) ∧
    (sortedCampaigns items).Pairwise (byCampaignOrder items) ∧
    (∀ p ∈ groupedCampaigns items,
      List.Perm p.2 (campaignItems items p.1) ∧
        p.2.Pairwise byClicksDescItem) ∧
    (campaignTotal exNewItems "A" = 8 ∧ campaignTotal exNewItems "B" = 10 ∧
      sortedCampaigns exNewItems = ["B", "A"] ∧
      (groupedCampaigns exNewItems).map
          (fun p => (p.1, p.2.map (fun it => it.clicks))) =
        [("B", [10]), ("A", [5, 3])]) := by
  haveI htot : IsTotal String (byCampaignOrder items) := by
    constructor
    intro a b
    rcases lt_trichotomy (campaignTotal items a) (campaignTotal items b) with h | h | h
    · exact Or.inr (Or.inl h)
    · rcases le_total a b with hab | hab
      · exact Or.inl (Or.inr ⟨h, hab⟩)
      · exact Or.inr (Or.inr ⟨h.symm, hab⟩)
    · exact Or.inl (Or.inl h)
  haveI htr : IsTrans String (byCampaignOrder items) := by
    constructor
    rintro a b c (hab | ⟨hab, hab'⟩) (hbc | ⟨hbc, hbc'⟩)
    · exact Or.inl (lt_trans hbc hab)
    · exact Or.inl (hbc ▸ hab)
    · exact Or.inl (hab ▸ hbc)
    · exact Or.inr ⟨hab.trans hbc, le_trans hab' hbc'⟩
  haveI htotI : IsTotal QItem byClicksDescItem := ⟨fun a b => le_total _ _⟩
  haveI htrI : IsTrans QItem byClicksDescItem :=
    ⟨fun _ _ _ hab hbc => le_trans hbc hab⟩
  refine ⟨List.perm_insertionSort _ _, List.sorted_insertionSort _ _, ?_, ?_⟩
  · intro p hp
    obtain ⟨c, _, hcp⟩ := List.mem_map.1 hp
    subst hcp
    exact ⟨List.perm_insertionSort _ _, List.sorted_insertionSort _ _⟩
  · refine ⟨by decide, by decide, by decide, by decide⟩

/-- Concrete instantiation of C5 at the specification's example
items. -/
theorem campaign_grouping_order_witness :
    List.Perm (sortedCampaigns exNewItems) (campaignKeys exNewItems) ∧
    (sortedCampaigns exNewItems).Pairwise (byCampaignOrder exNewItems) ∧
    (∀ p ∈ groupedCampaigns exNewItems,
      List.Perm p.2 (campaignItems exNewItems p.1) ∧
        p.2.Pairwise byClicksDescItem) ∧
    (campaignTotal exNewItems "A" = 8 ∧ campaignTotal exNewItems "B" = 10 ∧
      sortedCampaigns exNewItems = ["B", "A"] ∧
      (groupedCampaigns exNewItems).map
          (fun p => (p.1, p.2.map (fun it => it.clicks))) =
        [("B", [10]), ("A", [5, 3])]) :=
  campaign_grouping_order exNewItems

/-! ### Sheet versus email content -/

theorem dedupFirstAux_mem (l : List String) :
    ∀ (seen : List String) (x : String),
      x ∈ dedupFirstAux seen l ↔ (x ∈ l ∧ x ∉ seen) := by
  induction l with
  | nil => intro seen x; simp [dedupFirstAux]
  | cons k ks ih =>
      intro seen x
      by_cases hk : k ∈ seen
      · rw [dedupFirstAux, if_pos hk, ih]
        constructor
        · rintro ⟨hx, hxs⟩
          exact ⟨List.mem_cons_of_mem k hx, hxs⟩
        · rintro ⟨hx, hxs⟩
          rcases List.mem_cons.1 hx with hx | hx
          · exact absurd (hx ▸ hk) hxs
          · exact ⟨hx, hxs⟩
      · rw [dedupFirstAux, if_neg hk, List.mem_cons, ih]
        constructor
        · rintro (hx | ⟨hx, hxs⟩)
          · exact ⟨hx ▸ List.mem_cons_self k ks, hx ▸ hk⟩
          · exact ⟨List.mem_cons_of_mem k hx,
              fun hc => hxs (List.mem_cons_of_mem k hc)⟩
        · rintro ⟨hx, hxs⟩
          rcases List.mem_cons.1 hx with hx | hx
          · exact Or.inl hx
          · by_cases hxk : x = k
            · exact Or.inl hxk
            · exact Or.inr ⟨hx, by
                rw [List.mem_cons]
                rintro (hc | hc)
                · exact hxk hc
                · exact hxs hc⟩

theorem dedupFirstAux_nodup (l : List String) :
    ∀ seen : List String, (dedupFirstAux seen l).Nodup := by
  induction l with
  | nil => intro seen; exact List.nodup_nil
  | cons k ks ih =>
      intro seen
      by_cases hk : k ∈ seen
      · rw [dedupFirstAux, if_pos hk]; exact ih seen
      · rw [dedupFirstAux, if_neg hk]
        refine List.Nodup.cons ?_ (ih (k :: seen))
        intro hc
        have := ((dedupFirstAux_mem ks (k :: seen) k).1 hc).2
        exact this (List.mem_cons_self k seen)

theorem dedupFirst_nodup (l : List String) : (dedupFirst l).Nodup :=
  dedupFirstAux_nodup l []

theorem dedupFirst_mem (l : List String) (x : String) :
    x ∈ dedupFirst l ↔ x ∈ l := by
  rw [dedupFirst, dedupFirstAux_mem]
  simp

theorem flatten_map_perm_congr (keys : List String)
    (f g : String → List QItem) (h : ∀ k ∈ keys, List.Perm (f k) (g k)) :
    List.Perm (keys.map f).flatten (keys.map g).flatten := by
  induction keys with
  | nil => exact List.Perm.refl _
  | cons k ks ih =>
      simp only [List.map_cons, List.flatten_cons]
      exact List.Perm.append (h k (List.mem_cons_self k ks))
        (ih (fun x hx => h x (List.mem_cons_of_mem k hx)))

theorem flatten_campaignItems_perm :
    ∀ (keys : List String) (items : List QItem), keys.Nodup →
      (∀ it ∈ items, it.campaignName ∈ keys) →
      List.Perm (keys.map (fun k => campaignItems items k)).flatten items := by
  intro keys
  induction keys with
  | nil =>
      intro items _ hcov
      have hnil : items = [] := by
        cases items with
        | nil => rfl
        | cons it its =>
            exact absurd (hcov it (List.mem_cons_self it its)) (List.not_mem_nil _)
      subst hnil
      exact List.Perm.refl _
  | cons k ks ih =>
      intro items hnd hcov
      simp only [List.map_cons, List.flatten_cons]
      have hks : k ∉ ks := (List.nodup_cons.1 hnd).1
      have hrest : ∀ k' ∈ ks,
          campaignItems items k' =
            campaignItems (items.filter (fun it => !decide (it.campaignName = k))) k' := by
        intro k' hk'
        unfold campaignItems
        rw [List.filter_filter]
        apply List.filter_congr
        intro it _
        by_cases hit : it.campaignName = k'
        · have hkk' : k' ≠ k := fun hc => hks (hc ▸ hk')
          have hitk : ¬(it.campaignName = k) := by rw [hit]; exact hkk'
          simp [hit, hitk, hkk']
        · simp [hit]
      have hcov' : ∀ it ∈ items.filter (fun it => !decide (it.campaignName = k)),
          it.campaignName ∈ ks := by
        intro it hit
        have h1 := List.mem_filter.1 hit
        have h2 : ¬(it.campaignName = k) := by
          have := h1.2
          simpa using this
        rcases List.mem_cons.1 (hcov it h1.1) with hc | hc
        · exact absurd hc h2
        · exact hc
      have hmap : ks.map (fun k' => campaignItems items k') =
          ks.map (fun k' =>
            campaignItems (items.filter (fun it => !decide (it.campaignName = k))) k') :=
        List.map_congr_left hrest
      rw [hmap]
      have hjoin := ih (items.filter (fun it => !decide (it.campaignName = k)))
        (List.nodup_cons.1 hnd).2 hcov'
      refine List.Perm.trans (List.Perm.append_left _ hjoin) ?_
      exact List.filter_append_perm (fun it => decide (it.campaignName = k)) items

theorem groupedCampaigns_flatten_perm (items : List QItem) :
    List.Perm ((groupedCampaigns items).map (fun p => p.2)).flatten items := by
  unfold groupedCampaigns
  rw [List.map_map]
  have hstep1 : List.Perm
      ((sortedCampaigns items).map
        ((fun p : String × List QItem => p.2) ∘
          (fun c => (c, (campaignItems items c).insertionSort byClicksDescItem)))).flatten
      ((sortedCampaigns items).map (fun c => campaignItems items c)).flatten := by
    apply flatten_map_perm_congr
    intro k _
    exact List.perm_insertionSort _ _
  have hstep2 : List.Perm
      ((sortedCampaigns items).map (fun c => campaignItems items c)).flatten
      ((campaignKeys items).map (fun c => campaignItems items c)).flatten :=
    List.Perm.flatten ((List.perm_insertionSort _ _).map _)
  have hstep3 : List.Perm
      ((campaignKeys items).map (fun c => campaignItems items c)).flatten items := by
    apply flatten_campaignItems_perm
    · exact dedupFirst_nodup _
    · intro it hit
      rw [campaignKeys, dedupFirst_mem]
      exact List.mem_map_of_mem _ hit
  exact (hstep1.trans hstep2).trans hstep3

/-- C10: when there are new queries, the spreadsheet receives every new
query (including zero-click ones, in clicks-descending order), while the
email carries exactly the new queries with strictly positive clicks; if
none has positive clicks a fallback notice referencing the sheet is sent
instead of the grouped tables. -/
theorem sheet_full_email_positive_only (recent : List SRow)
    (history : List String) (hne : newData recent history ≠ []) :
    ∃ run, runNewQueryWorkflow (.ok ()) recent history = .ok run ∧
      run.sheetRows = (newData recent history).insertionSort byClicksDescItem ∧
      List.Perm run.sheetRows (newData recent history) ∧
      (emailData recent history = [] → run.emails = [.fallbackNotice]) ∧
      (emailData recent history ≠ [] →
        run.emails = [.groupedReport (groupedCampaigns (emailData recent history))] ∧
        List.Perm
          ((groupedCampaigns (emailData recent history)).map (fun p => p.2)).flatten
          (emailData recent history)) ∧
      (∀ it ∈ emailData recent history,
        0 < it.clicks ∧ it ∈ newData recent history) := by
  have hfalse : (newData recent history).isEmpty = false := by
    rcases hd : newData recent history with _ | ⟨x, xs⟩
    · exact absurd hd hne
    · rfl
  have hed : ((newData recent history).insertionSort byClicksDescItem).filter
      (fun it => 0 < it.clicks) = emailData recent history := rfl
  have hmem : ∀ it ∈ emailData recent history,
      0 < it.clicks ∧ it ∈ newData recent history := by
    intro it hit
    have h1 := List.mem_filter.1 hit
    refine ⟨by simpa using h1.2, ?_⟩
    exact (List.mem_insertionSort _).1 h1.1
  unfold runNewQueryWorkflow
  simp only [hfalse, Bool.false_eq_true, if_false, hed]
  by_cases hempty : (emailData recent history).isEmpty
  · rw [if_pos hempty]
    refine ⟨_, rfl, rfl, List.perm_insertionSort _ _, fun _ => rfl, ?_, hmem⟩
    intro hne'
    exact absurd (List.isEmpty_iff.1 hempty) hne'
  · rw [if_neg hempty]
    refine ⟨_, rfl, rfl, List.perm_insertionSort _ _, ?_, ?_, hmem⟩
    · intro h0
      exact absurd (by rw [h0]; rfl) hempty
    · intro _
      exact ⟨rfl, groupedCampaigns_flatten_perm _⟩

/-- Concrete instantiation of C10: one clicked and one zero-click new
query, empty history. -/
theorem sheet_full_email_positive_only_witness :
    (newData
        [⟨"red shoes", some 50, some 2, some 1000000, "c1", "A", "g1", "G1"⟩,
         ⟨"blue shoes", some 9, some 0, some 0, "c1", "A", "g1", "G1"⟩] [] ≠ []) ∧
    (∃ run, runNewQueryWorkflow (.ok ())
        [⟨"red shoes", some 50, some 2, some 1000000, "c1", "A", "g1", "G1"⟩,
         ⟨"blue shoes", some 9, some 0, some 0, "c1", "A", "g1", "G1"⟩] [] = .ok run ∧
      run.sheetRows =
        (newData
          [⟨"red shoes", some 50, some 2, some 1000000, "c1", "A", "g1", "G1"⟩,
           ⟨"blue shoes", some 9, some 0, some 0, "c1", "A", "g1", "G1"⟩]
          []).insertionSort byClicksDescItem ∧
      List.Perm run.sheetRows
        (newData
          [⟨"red shoes", some 50, some 2, some 1000000, "c1", "A", "g1", "G1"⟩,
           ⟨"blue shoes", some 9, some 0, some 0, "c1", "A", "g1", "G1"⟩] []) ∧
      (emailData
          [⟨"red shoes", some 50, some 2, some 1000000, "c1", "A", "g1", "G1"⟩,
           ⟨"blue shoes", some 9, some 0, some 0, "c1", "A", "g1", "G1"⟩] [] = [] →
        run.emails = [.fallbackNotice]) ∧
      (emailData
          [⟨"red shoes", some 50, some 2, some 1000000, "c1", "A", "g1", "G1"⟩,
           ⟨"blue shoes", some 9, some 0, some 0, "c1", "A", "g1", "G1"⟩] [] ≠ [] →
        run.emails = [.groupedReport (groupedCampaigns (emailData
          [⟨"red shoes", some 50, some 2, some 1000000, "c1", "A", "g1", "G1"⟩,
           ⟨"blue shoes", some 9, some 0, some 0, "c1", "A", "g1", "G1"⟩] []))] ∧
        List.Perm
          ((groupedCampaigns (emailData
            [⟨"red shoes", some 50, some 2, some 1000000, "c1", "A", "g1", "G1"⟩,
             ⟨"blue shoes", some 9, some 0, some 0, "c1", "A", "g1", "G1"⟩] [])).map
            (fun p => p.2)).flatten
          (emailData
            [⟨"red shoes", some 50, some 2, some 1000000, "c1", "A", "g1", "G1"⟩,
             ⟨"blue shoes", some 9, some 0, some 0, "c1", "A", "g1", "G1"⟩] [])) ∧
      (∀ it ∈ emailData
          [⟨"red shoes", some 50, some 2, some 1000000, "c1", "A", "g1", "G1"⟩,
           ⟨"blue shoes", some 9, some 0, some 0, "c1", "A", "g1", "G1"⟩] [],
        0 < it.clicks ∧ it ∈ newData
          [⟨"red shoes", some 50, some 2, some 1000000, "c1", "A", "g1", "G1"⟩,
           ⟨"blue shoes", some 9, some 0, some 0, "c1", "A", "g1", "G1"⟩] [])) :=
  ⟨by with_unfolding_all decide,
    sheet_full_email_positive_only
      [⟨"red shoes", some 50, some 2, some 1000000, "c1", "A", "g1", "G1"⟩,
       ⟨"blue shoes", some 9, some 0, some 0, "c1", "A", "g1", "G1"⟩] []
      (by with_unfolding_all decide)⟩

/-! ### Malformed numeric fields -/

/-- Replace a `NaN` parse result by `0` (what "treated as 0" means for
one field). -/
def sanitizeJNum (x : JNum) : JNum := if x = .nan then .num 0 else x

/-- An exporter row with every malformed numeric field replaced by 0. -/
def sanitizeGRow (r : GRow) : GRow :=
  { r with
    clicks := sanitizeJNum r.clicks
    impressions := sanitizeJNum r.impressions
    costMicros := sanitizeJNum r.costMicros
    convValue := sanitizeJNum r.convValue
    conversions := sanitizeJNum r.conversions
    allConversions := sanitizeJNum r.allConversions }

theorem jsOr0_sanitize (x : JNum) : jsOr0 (sanitizeJNum x) = jsOr0 x := by
  rcases x with _ | _ | _ | q
  · rfl
  · rfl
  · rfl
  · rw [sanitizeJNum, if_neg (by intro h; cases h)]

theorem GStats.addRow_sanitize (s : GStats) (r : GRow) :
    s.addRow (sanitizeGRow r) = s.addRow r := by
  unfold GStats.addRow sanitizeGRow
  simp only [jsOr0_sanitize]

theorem gBucketAdd_sanitize (bs : List (String × GStats)) (k : String) (r : GRow) :
    gBucketAdd bs k (sanitizeGRow r) = gBucketAdd bs k r := by
  induction bs with
  | nil => simp [gBucketAdd, GStats.addRow_sanitize]
  | cons q qs ih =>
      by_cases hq : q.1 = k
      · simp [gBucketAdd, hq, GStats.addRow_sanitize]
      · simp [gBucketAdd, hq, ih]

theorem gAgg_sanitize (names : String → Option String) (grows : List GRow) :
    gAgg names (grows.map sanitizeGRow) = gAgg names grows := by
  unfold gAgg
  suffices h : ∀ (rs : List GRow) (bs : List (String × GStats)),
      (rs.map sanitizeGRow).foldl
        (fun bs r => gBucketAdd bs (resolveGeoName names r.countryCriterionId) r) bs =
      rs.foldl
        (fun bs r => gBucketAdd bs (resolveGeoName names r.countryCriterionId) r) bs by
    exact h grows []
  intro rs
  induction rs with
  | nil => intro bs; rfl
  | cons r rs ih =>
      intro bs
      rw [List.map_cons, List.foldl_cons, List.foldl_cons]
      have hkey : (sanitizeGRow r).countryCriterionId = r.countryCriterionId := rfl
      rw [hkey, gBucketAdd_sanitize]
      exact ih _

theorem jadd_nan_right (x : JNum) : jadd x .nan = .nan := by
  rcases x with _ | _ | _ | q <;> rfl

theorem jadd_nan_left (x : JNum) : jadd .nan x = .nan := by
  rcases x with _ | _ | _ | q <;> rfl

theorem countryFold_impressions_nan_stable (locMap : String → Option String) :
    ∀ (rows : List CRow) (st : CountryAgg),
      st.totals.impressions = .nan →
      (rows.foldl (countryStep locMap) st).totals.impressions = .nan := by
  intro rows
  induction rows with
  | nil => intro st h; exact h
  | cons r rs ih =>
      intro st h
      rw [List.foldl_cons]
      apply ih
      unfold countryStep
      by_cases hc : jlt (.num 0) r.cost
      · rw [if_pos hc]
        show jadd st.totals.impressions r.impressions = .nan
        rw [h, jadd_nan_left]
      · rw [if_neg hc]; exact h

theorem countryFold_impressions_nan (locMap : String → Option String) :
    ∀ (rows : List CRow) (st : CountryAgg),
      (∃ r ∈ rows, jlt (.num 0) r.cost = true ∧ r.impressions = .nan) →
      (rows.foldl (countryStep locMap) st).totals.impressions = .nan := by
  intro rows
  induction rows with
  | nil =>
      rintro st ⟨r, hr, -⟩
      exact absurd hr (List.not_mem_nil r)
  | cons r' rs ih =>
      rintro st ⟨r, hr, hacc, hnan⟩
      rcases List.mem_cons.1 hr with hr | hr
      · subst hr
        rw [List.foldl_cons]
        apply countryFold_impressions_nan_stable
        unfold countryStep
        rw [if_pos hacc]
        show jadd st.totals.impressions r.impressions = .nan
        rw [hnan, jadd_nan_right]
      · rw [List.foldl_cons]
        exact ih _ ⟨r, hr, hacc, hnan⟩

/-- C6 counterexample: in `getCountryData`, a record with a positive
parsed `Cost` but a malformed (`NaN`) `Impressions` field poisons both
its country bucket and the grand totals with `NaN` — the malformed field
is not treated as `0`. -/
theorem daily_malformed_field_counterexample :
    ((countryAgg (fun _ => some "United States")
        [⟨"2840", .num 5, .nan, .num 1, .num 0⟩]).buckets.map
      (fun p => p.2.impressions) = [JNum.nan]) ∧
    ((countryAgg (fun _ => some "United States")
        [⟨"2840", .num 5, .nan, .num 1, .num 0⟩]).totals.impressions = JNum.nan) ∧
    JNum.nan ≠ JNum.num 0 :=
  ⟨by with_unfolding_all rfl, by with_unfolding_all rfl, by decide⟩

/-- C6 (amended): the exporter's `|| 0` coercions treat every malformed
(`NaN`) numeric field as `0` — aggregating the sanitized input gives the
same buckets — and the aggregation never fails; but in the daily email's
`getCountryData` a record with positive parsed cost and a malformed
`Impressions` field propagates `NaN` into the grand totals (a record
with malformed `Cost` is skipped outright, see C9). -/
theorem malformed_fields_coerced_or_poisoning
    (names : String → Option String) (grows : List GRow)
    (locMap : String → Option String) (rows : List CRow) (r : CRow)
    (hr : r ∈ rows) (hacc : jlt (.num 0) r.cost = true)
    (hnan : r.impressions = .nan) :
    gAgg names (grows.map sanitizeGRow) = gAgg names grows ∧
    (countryAgg locMap rows).totals.impressions = .nan :=
  ⟨gAgg_sanitize names grows,
    countryFold_impressions_nan locMap rows ⟨[], Stats.zero⟩ ⟨r, hr, hacc, hnan⟩⟩

/-- Concrete instantiation of the amended C6 statement: one exporter
row with two malformed fields, and one daily row with positive cost and
malformed impressions. -/
theorem malformed_fields_coerced_or_poisoning_witness :
    ((⟨"2840", .num 5, .nan, .num 1, .num 0⟩ : CRow) ∈
      ([⟨"2840", .num 5, .nan, .num 1, .num 0⟩] : List CRow)) ∧
    (jlt (.num 0) (CRow.cost ⟨"2840", .num 5, .nan, .num 1, .num 0⟩) = true) ∧
    (CRow.impressions ⟨"2840", .num 5, .nan, .num 1, .num 0⟩ = .nan) ∧
    (gAgg (fun _ => some "United States")
        (([⟨"2840", .nan, .num 7, .nan, .num 0, .num 0, .num 0⟩] :
          List GRow).map sanitizeGRow) =
      gAgg (fun _ => some "United States")
        [⟨"2840", .nan, .num 7, .nan, .num 0, .num 0, .num 0⟩] ∧
    (countryAgg (fun _ => some "United States")
        [⟨"2840", .num 5, .nan, .num 1, .num 0⟩]).totals.impressions = .nan) :=
  ⟨List.mem_singleton.2 rfl, by decide, rfl,
    malformed_fields_coerced_or_poisoning (fun _ => some "United States")
      [⟨"2840", .nan, .num 7, .nan, .num 0, .num 0, .num 0⟩]
      (fun _ => some "United States")
      [⟨"2840", .num 5, .nan, .num 1, .num 0⟩]
      ⟨"2840", .num 5, .nan, .num 1, .num 0⟩
      (List.mem_singleton.2 rfl) (by decide) rfl⟩

end FreeScripts
